import Mathlib

/-!
# bindings/c/tree-sitter-swlox.h

The repository's only source file is a sixteen-line C header.  It is embedded
here as its sixteen physical lines, and the properties are stated about what a
C translator does with those lines:

* translation phase 3 (ISO C 5.1.1.2): each line is decomposed into
  preprocessing tokens, `//` comments are dropped (`lexLine`);
* translation phase 4 (ISO C 6.10): `#ifdef`, `#ifndef`, `#define`, `#endif`
  are executed against a macro environment, text lines of included groups are
  macro-expanded and emitted (`includeText`);
* translation phase 7 (ISO C 6.7, 6.9; C++ linkage-specifications): the
  emitted tokens are parsed into external declarations (`parseTokens`).

Only the fragment of C that the header needs, and a little more so that the
properties are not vacuous (struct member lists, function bodies, parameters),
is modelled; every function refuses (`none`) what it does not model.
-/

namespace TalkTalk

/-! ## The source text -/

/-- The sixteen physical lines of `bindings/c/tree-sitter-swlox.h`, in order.
The braces of lines 7 and 13 are written as the escapes `\x7b` and `\x7d`. -/
def headerLines : List String := [
  "#ifndef TREE_SITTER_TALKTALK_H_",
  "#define TREE_SITTER_TALKTALK_H_",
  "",
  "typedef struct TSLanguage TSLanguage;",
  "",
  "#ifdef __cplusplus",
  "extern \"C\" \x7b",
  "#endif",
  "",
  "const TSLanguage *tree_sitter_talktalk(void);",
  "",
  "#ifdef __cplusplus",
  "\x7d",
  "#endif",
  "",
  "#endif // TREE_SITTER_TALKTALK_H_"]

/-- The include-guard macro of the header (lines 1, 2 and 16). -/
def TREE_SITTER_TALKTALK_H_ : String := "TREE_SITTER_TALKTALK_H_"

/-- The macro every C++ translator predefines, tested on lines 6 and 12. -/
def __cplusplus : String := "__cplusplus"

/-- The type name introduced on line 4. -/
def TSLanguage : String := "TSLanguage"

/-- The function name declared on line 10. -/
def tree_sitter_talktalk : String := "tree_sitter_talktalk"

/-! ## Phase 3: preprocessing tokens -/

/-- Preprocessing tokens: identifiers (keywords included), pp-numbers, string
literals (the text between the quotes) and single-character punctuators. -/
inductive Token where
  | ident (s : String)
  | number (s : String)
  | str (s : String)
  | punct (c : Char)
  deriving DecidableEq

/-- Characters of identifiers and pp-numbers. -/
def isIdentChar (c : Char) : Bool := c.isAlphanum || c == '_'

/-- The string-literal delimiter. -/
def dquote : Char := Char.ofNat 34

/-- Close the word collected so far (held reversed): nothing when it is empty,
a pp-number when it starts with a digit, an identifier otherwise. -/
def flushWord (cur : List Char) : List Token :=
  match cur.reverse with
  | [] => []
  | c :: cs =>
      if c.isDigit then [Token.number (String.mk (c :: cs))]
      else [Token.ident (String.mk (c :: cs))]

/-- The lexer is either in code, collecting a word, or inside a string
literal, collecting its characters. -/
inductive LexMode where
  | code (cur : List Char)
  | inString (acc : List Char)

/-- Tokens of one line.  A `//` comment ends the line; an unterminated string
literal is refused.  Escape sequences inside string literals and `/* */`
comments are not modelled. -/
def lexChars : LexMode → List Char → Option (List Token)
  | .code cur, [] => some (flushWord cur)
  | .inString _, [] => none
  | .inString acc, c :: cs =>
      if c == dquote then
        (lexChars (.code []) cs).map (Token.str (String.mk acc.reverse) :: ·)
      else lexChars (.inString (c :: acc)) cs
  | .code cur, c :: cs =>
      if isIdentChar c then lexChars (.code (c :: cur)) cs
      else if c == '/' && cs.head? == some '/' then some (flushWord cur)
      else if c == dquote then (lexChars (.inString []) cs).map (flushWord cur ++ ·)
      else if c.isWhitespace then (lexChars (.code []) cs).map (flushWord cur ++ ·)
      else (lexChars (.code []) cs).map (flushWord cur ++ Token.punct c :: ·)

/-- Tokens of one physical line. -/
def lexLine (s : String) : Option (List Token) := lexChars (.code []) s.toList

/-! ## Phase 4: conditional inclusion and macro replacement -/

/-- A line as the preprocessor sees it. -/
inductive Line where
  | ifdef (name : String)
  | ifndef (name : String)
  | define (name : String) (body : List Token)
  | endif
  | text (toks : List Token)
  | unsupported
  deriving DecidableEq

/-- A line whose first token is `#` is a directive; of those only the four the
header uses are modelled, and `#define` only for object-like macros (a
replacement list that starts with a parenthesis is refused, since it may be
the parameter list of a function-like macro).  Every other line is text. -/
def classify : List Token → Line
  | [.punct '#', .ident "ifdef", .ident n] => .ifdef n
  | [.punct '#', .ident "ifndef", .ident n] => .ifndef n
  | .punct '#' :: .ident "define" :: .ident _ :: .punct '(' :: _ => .unsupported
  | .punct '#' :: .ident "define" :: .ident n :: body => .define n body
  | [.punct '#', .ident "endif"] => .endif
  | .punct '#' :: _ => .unsupported
  | toks => .text toks

/-- Lex and classify one physical line. -/
def parseLine (s : String) : Option Line := (lexLine s).map classify

/-- Object-like macros: a name and its replacement list.  The first entry for
a name is the one in force. -/
abbrev MacroEnv := List (String × List Token)

/-- Whether `n` is currently defined as a macro name. -/
def isDefined (env : MacroEnv) (n : String) : Bool := (env.lookup n).isSome

/-- Macro replacement of one token with rescanning (ISO C 6.10.3.4).  `hide`
holds the names being replaced, which are not replaced again in their own
expansion.  Each level of nesting adds a defined name to `hide`, so a fuel of
one more than the number of macros is never exhausted. -/
def expandTok (env : MacroEnv) : Nat → List String → Token → List Token
  | 0, _, t => [t]
  | fuel + 1, hide, .ident s =>
      if s ∈ hide then [.ident s]
      else match env.lookup s with
        | none => [.ident s]
        | some body => body.flatMap (expandTok env fuel (s :: hide))
  | _ + 1, _, t => [t]

/-- Macro replacement of a text line. -/
def expandLine (env : MacroEnv) (toks : List Token) : List Token :=
  toks.flatMap (expandTok env (env.length + 1) [])

/-- State of the preprocessor: the macro environment, the open conditional
groups (innermost first, `true` when the group's own condition held) and the
tokens emitted so far. -/
structure PPState where
  env : MacroEnv
  conds : List Bool
  out : List Token
  deriving DecidableEq

/-- Lines are processed only when every enclosing group is included. -/
def PPState.active (st : PPState) : Bool := st.conds.all id

/-- One line.  In a skipped group only the nesting of conditionals is tracked.
`#endif` without an open group and unmodelled directives are refused. -/
def step (st : PPState) : Line → Option PPState
  | .ifdef n => some { st with conds := isDefined st.env n :: st.conds }
  | .ifndef n => some { st with conds := (!isDefined st.env n) :: st.conds }
  | .endif =>
      match st.conds with
      | [] => none
      | _ :: cs => some { st with conds := cs }
  | .define n body =>
      if st.active then some { st with env := (n, body) :: st.env } else some st
  | .text toks =>
      if st.active then some { st with out := st.out ++ expandLine st.env toks }
      else some st
  | .unsupported => none

/-- Process the lines in order. -/
def runLines : PPState → List Line → Option PPState
  | st, [] => some st
  | st, l :: ls => (step st l).bind fun st1 => runLines st1 ls

/-- Include one file, already split into classified lines, appending to the
tokens emitted so far.  A file must close every group it opens. -/
def includeFile (env : MacroEnv) (out : List Token) (ls : List Line) :
    Option (MacroEnv × List Token) :=
  match runLines ⟨env, [], out⟩ ls with
  | some st => if st.conds.isEmpty then some (st.env, st.out) else none
  | none => none

/-- Include one file given as its physical lines. -/
def includeText (env : MacroEnv) (out : List Token) (lines : List String) :
    Option (MacroEnv × List Token) :=
  (lines.mapM parseLine).bind (includeFile env out)

/-- A translation unit that includes the header once. -/
def includeOnce (env : MacroEnv) : Option (MacroEnv × List Token) :=
  includeText env [] headerLines

/-- A translation unit that includes the header twice in a row. -/
def includeTwice (env : MacroEnv) : Option (MacroEnv × List Token) :=
  (includeText env [] headerLines).bind fun r => includeText r.1 r.2 headerLines

/-- Identifiers that occur in the text lines of a file. -/
def textIdentifiers : List Line → List String
  | [] => []
  | .text toks :: ls =>
      toks.filterMap (fun t => match t with | .ident s => some s | _ => none)
        ++ textIdentifiers ls
  | _ :: ls => textIdentifiers ls

/-- Identifiers of the header's text lines. -/
def headerIdentifiers : List String :=
  match headerLines.mapM parseLine with
  | some ls => textIdentifiers ls
  | none => []

/-! ## Phase 7: external declarations -/

/-- The types the parser can denote.  A struct specifier carries its member
list when it has one (`none`: no braces follow the tag, so nothing is said
about the members). -/
inductive CType where
  | named (name : String)
  | struct (tag : String) (members : Option (List Token))
  | const (t : CType)
  | pointer (t : CType)
  deriving DecidableEq

/-- A parameter-type-list: `(void)`, the empty `()`, or parameters. -/
inductive ParamList where
  | void
  | unspecified
  | params (ps : List (CType × Option String))
  deriving DecidableEq

/-- A declaration at file scope.  A function carries its body when the
declaration is a definition (`none`: the declarator is followed by `;`). -/
inductive Decl where
  | typedef (ty : CType) (name : String)
  | function (ret : CType) (name : String) (params : ParamList)
      (body : Option (List Token))
  | variable (ty : CType) (name : String)
  deriving DecidableEq

/-- An external declaration with the linkage-specifications that enclose it,
innermost first. -/
structure ExtDecl where
  linkage : List String
  decl : Decl
  deriving DecidableEq

/-- Keywords that cannot stand for a type name. -/
def reservedWords : List String :=
  ["typedef", "extern", "static", "inline", "struct", "union", "enum",
   "const", "volatile", "restrict", "return", "sizeof"]

/-- The tokens up to the brace that closes the group already opened, and the
tokens after it.  `depth` counts the braces opened inside. -/
def takeBraced : Nat → List Token → List Token → Option (List Token × List Token)
  | _, _, [] => none
  | depth, acc, .punct c :: rest =>
      if c == Char.ofNat 125 then
        match depth with
        | 0 => some (acc.reverse, rest)
        | d + 1 => takeBraced d (.punct c :: acc) rest
      else if c == Char.ofNat 123 then takeBraced (depth + 1) (.punct c :: acc) rest
      else takeBraced depth (.punct c :: acc) rest
  | depth, acc, t :: rest => takeBraced depth (t :: acc) rest

/-- The tokens up to the first `)` and the tokens after it; a nested `(` is
not modelled. -/
def takeParams : List Token → List Token → Option (List Token × List Token)
  | _, [] => none
  | acc, .punct c :: rest =>
      if c == ')' then some (acc.reverse, rest)
      else if c == '(' then none
      else takeParams (.punct c :: acc) rest
  | acc, t :: rest => takeParams (t :: acc) rest

/-- Split at the commas. -/
def splitCommas : List Token → List Token → List (List Token)
  | acc, [] => [acc.reverse]
  | acc, t :: rest =>
      if t = .punct ',' then acc.reverse :: splitCommas [] rest
      else splitCommas (t :: acc) rest

/-- The type specifier proper: `struct tag`, `struct tag { members }`, or a
name that is not a reserved word. -/
def parseBase : List Token → Option (CType × List Token)
  | .ident "struct" :: .ident tag :: rest =>
      match rest with
      | .punct c :: rest1 =>
          if c == Char.ofNat 123 then
            (takeBraced 0 [] rest1).map fun r => (.struct tag (some r.1), r.2)
          else some (.struct tag none, rest)
      | _ => some (.struct tag none, rest)
  | .ident n :: rest => if n ∈ reservedWords then none else some (.named n, rest)
  | _ => none

/-- Declaration specifiers: an optional leading `const` and the specifier. -/
def parseSpecifiers : List Token → Option (CType × List Token)
  | .ident "const" :: rest => (parseBase rest).map fun r => (.const r.1, r.2)
  | toks => parseBase toks

/-- The pointer part of a declarator, and a `const` that follows the
specifier or a `*`. -/
def parsePointers : CType → List Token → CType × List Token
  | ty, .punct '*' :: rest => parsePointers (.pointer ty) rest
  | ty, .ident "const" :: rest => parsePointers (.const ty) rest
  | ty, rest => (ty, rest)

/-- Specifiers followed by pointers. -/
def parseType (toks : List Token) : Option (CType × List Token) :=
  (parseSpecifiers toks).map fun r => parsePointers r.1 r.2

/-- One parameter: a type and an optional name. -/
def parseParam (toks : List Token) : Option (CType × Option String) :=
  match parseType toks with
  | some (ty, []) => some (ty, none)
  | some (ty, [.ident n]) => if n ∈ reservedWords then none else some (ty, some n)
  | _ => none

/-- The parameter-type-list between the parentheses. -/
def parseParams : List Token → Option ParamList
  | [] => some .unspecified
  | [.ident "void"] => some .void
  | toks => ((splitCommas [] toks).mapM parseParam).map .params

/-- What follows the declared name: `;` for an object, a parameter list and
`;` for a prototype, a parameter list and a braced body for a definition. -/
def parseDeclarator (ty : CType) (name : String) :
    List Token → Option (Decl × List Token)
  | .punct ';' :: rest => some (.variable ty name, rest)
  | .punct '(' :: rest =>
      (takeParams [] rest).bind fun r =>
        (parseParams r.1).bind fun ps =>
          match r.2 with
          | .punct c :: rest1 =>
              if c == ';' then some (.function ty name ps none, rest1)
              else if c == Char.ofNat 123 then
                (takeBraced 0 [] rest1).map fun b =>
                  (.function ty name ps (some b.1), b.2)
              else none
          | _ => none
  | _ => none

/-- One declaration: `typedef type name ;`, or a type, a name and a
declarator. -/
def parseDecl : List Token → Option (Decl × List Token)
  | .ident "typedef" :: rest =>
      match parseType rest with
      | some (ty, .ident n :: .punct ';' :: rest1) =>
          if n ∈ reservedWords then none else some (.typedef ty n, rest1)
      | _ => none
  | toks =>
      match parseType toks with
      | some (ty, .ident n :: rest1) =>
          if n ∈ reservedWords then none else parseDeclarator ty n rest1
      | _ => none

/-- The external declarations of a token sequence.  `links` holds the open
linkage-specifications `extern "..." {`; a closing brace at file scope closes
the innermost one.  The fuel bounds the number of declarations and braces;
running out of it is a refusal. -/
def parseUnit : Nat → List String → List Token → Option (List ExtDecl)
  | _, [], [] => some []
  | _, _ :: _, [] => none
  | 0, _, _ :: _ => none
  | fuel + 1, links, .ident "extern" :: .str l :: .punct c :: rest =>
      if c == Char.ofNat 123 then parseUnit fuel (l :: links) rest else none
  | fuel + 1, links, .punct c :: rest =>
      if c == Char.ofNat 125 then
        match links with
        | [] => none
        | _ :: outer => parseUnit fuel outer rest
      else none
  | fuel + 1, links, toks =>
      (parseDecl toks).bind fun r =>
        (parseUnit fuel links r.2).map fun ds => ⟨links, r.1⟩ :: ds

/-- The external declarations of a preprocessed translation unit. -/
def parseTokens (toks : List Token) : Option (List ExtDecl) :=
  parseUnit toks.length [] toks

/-- Nesting depth after the tokens, starting from `depth`; refused when a
closing brace has no opening one. -/
def braceDepth : Nat → List Token → Option Nat
  | depth, [] => some depth
  | depth, .punct c :: rest =>
      if c == Char.ofNat 123 then braceDepth (depth + 1) rest
      else if c == Char.ofNat 125 then
        match depth with
        | 0 => none
        | d + 1 => braceDepth d rest
      else braceDepth depth rest
  | depth, _ :: rest => braceDepth depth rest

/-- Braces are balanced: every closing brace has an opening one and no group
is left open. -/
def balanced (toks : List Token) : Bool := braceDepth 0 toks == some 0

/-! ## What a declaration says -/

/-- The function declarations among the external declarations. -/
def functionsOf : List ExtDecl → List Decl
  | [] => []
  | ⟨_, .function ret name ps body⟩ :: ds => .function ret name ps body :: functionsOf ds
  | _ :: ds => functionsOf ds

/-- The member lists a type gives to the struct with tag `n`. -/
def CType.memberLists (n : String) : CType → List (List Token)
  | .named _ => []
  | .struct _ none => []
  | .struct tag (some ms) => if tag = n then [ms] else []
  | .const t => t.memberLists n
  | .pointer t => t.memberLists n

/-- Whether the type holds an object of the type named `n` (as typedef name
or struct tag) itself, not a pointer to one. -/
def CType.holdsByValue (n : String) : CType → Bool
  | .named m => m == n
  | .struct tag _ => tag == n
  | .const t => t.holdsByValue n
  | .pointer _ => false

/-- The types a declaration mentions: its own, and those of its parameters. -/
def Decl.types : Decl → List CType
  | .typedef ty _ => [ty]
  | .variable ty _ => [ty]
  | .function ret _ (.params ps) _ => ret :: ps.map (·.1)
  | .function ret _ _ _ => [ret]

/-- Whether a declaration is a typedef. -/
def Decl.isTypedef : Decl → Bool
  | .typedef _ _ => true
  | _ => false

/-! ## Vocabulary of the statements -/

/-- Tokens of line 4, the typedef. -/
def typedefLine : List Token :=
  [.ident "typedef", .ident "struct", .ident "TSLanguage", .ident "TSLanguage", .punct ';']

/-- Tokens of line 7, which opens the linkage-specification. -/
def linkageOpenLine : List Token :=
  [.ident "extern", .str "C", .punct (Char.ofNat 123)]

/-- Tokens of line 10, the prototype. -/
def prototypeLine : List Token :=
  [.ident "const", .ident "TSLanguage", .punct '*', .ident "tree_sitter_talktalk",
   .punct '(', .ident "void", .punct ')', .punct ';']

/-- Tokens of line 13, which closes the linkage-specification. -/
def linkageCloseLine : List Token := [.punct (Char.ofNat 125)]

/-- Tokens of every text line of a file, whatever group the line is in. -/
def textTokens : List Line → List Token
  | [] => []
  | .text toks :: ls => toks ++ textTokens ls
  | _ :: ls => textTokens ls

/-- Every token of the header outside its directives. -/
def headerText : List Token :=
  match headerLines.mapM parseLine with
  | some ls => textTokens ls
  | none => []

/-- No identifier of the header's text lines is a macro name, so macro
replacement leaves those lines as written. -/
def noTextMacro (env : MacroEnv) : Bool :=
  headerIdentifiers.all fun n => !isDefined env n

/-- A C translator with no macro defined. -/
def plainC : MacroEnv := []

/-- A C++17 translator: `__cplusplus` is predefined as `201703L`. -/
def cxx17 : MacroEnv := [(__cplusplus, [.number "201703L"])]

/-- The declaration of line 4: `TSLanguage` names `struct TSLanguage`, of
which no member list is given. -/
def typedefDecl : Decl := .typedef (.struct TSLanguage none) TSLanguage

/-- The declaration of line 10: a function without a body, taking no
argument and returning a pointer to `const TSLanguage`. -/
def prototypeDecl : Decl :=
  .function (.pointer (.const (.named TSLanguage))) tree_sitter_talktalk .void none

/-- Number of macro names that are not hidden, counted with repetition. -/
def available (env : MacroEnv) (hide : List String) : Nat :=
  (env.map Prod.fst).countP fun k => decide (k ∉ hide)


/-! ## The header as the preprocessor sees it -/

/-- The sixteen lines lex and classify to four conditionals' worth of
directives, one definition and nine text lines (six of them blank). -/
theorem parse_headerLines :
    headerLines.mapM parseLine = some
      [ .ifndef TREE_SITTER_TALKTALK_H_,
        .define TREE_SITTER_TALKTALK_H_ [],
        .text [],
        .text typedefLine,
        .text [],
        .ifdef __cplusplus,
        .text linkageOpenLine,
        .endif,
        .text [],
        .text prototypeLine,
        .text [],
        .ifdef __cplusplus,
        .text linkageCloseLine,
        .endif,
        .text [],
        .endif ] := by
  decide

theorem headerIdentifiers_eq :
    headerIdentifiers =
      ["typedef", "struct", "TSLanguage", "TSLanguage", "extern", "const", "TSLanguage",
       "tree_sitter_talktalk", "void"] := by
  decide

theorem headerText_eq :
    headerText = typedefLine ++ linkageOpenLine ++ prototypeLine ++ linkageCloseLine := by
  decide

theorem isDefined_eq_false {env : MacroEnv} {n : String} :
    isDefined env n = false ↔ env.lookup n = none := by
  simp [isDefined]

theorem isDefined_guard_cons (env : MacroEnv) (body : List Token) :
    isDefined ((TREE_SITTER_TALKTALK_H_, body) :: env) TREE_SITTER_TALKTALK_H_ = true := by
  simp [isDefined, List.lookup]

theorem isDefined_cons_of_ne (env : MacroEnv) (body : List Token) {g n : String}
    (h : n ≠ g) : isDefined ((g, body) :: env) n = isDefined env n := by
  have : (n == g) = false := by simpa using h
  simp [isDefined, List.lookup, this]

/-! ## Macro replacement -/

theorem expandTok_punct (env : MacroEnv) (fuel : Nat) (hide : List String) (c : Char) :
    expandTok env fuel hide (.punct c) = [.punct c] := by
  cases fuel <;> simp [expandTok]

theorem expandTok_str (env : MacroEnv) (fuel : Nat) (hide : List String) (s : String) :
    expandTok env fuel hide (.str s) = [.str s] := by
  cases fuel <;> simp [expandTok]

theorem expandTok_undefined (env : MacroEnv) (fuel : Nat) (hide : List String) (s : String)
    (h : isDefined env s = false) : expandTok env fuel hide (.ident s) = [.ident s] := by
  rw [isDefined_eq_false] at h
  cases fuel <;> simp [expandTok, h]

theorem expandLine_nil (env : MacroEnv) : expandLine env [] = [] := by
  simp [expandLine]

/-- Under an environment that defines none of the header's identifiers, the
four text lines are emitted as written. -/
theorem expandLine_header (env : MacroEnv) (h : noTextMacro env = true) :
    expandLine env typedefLine = typedefLine ∧
    expandLine env linkageOpenLine = linkageOpenLine ∧
    expandLine env prototypeLine = prototypeLine ∧
    expandLine env linkageCloseLine = linkageCloseLine := by
  simp only [noTextMacro, headerIdentifiers_eq, List.all_cons, List.all_nil, Bool.and_true,
    Bool.and_eq_true, Bool.not_eq_true'] at h
  obtain ⟨h1, h2, h3, -, h5, h6, -, h8, h9⟩ := h
  simp [expandLine, typedefLine, linkageOpenLine, prototypeLine, linkageCloseLine,
    expandTok_punct, expandTok_str, expandTok_undefined, h1, h2, h3, h5, h6, h8, h9]

theorem noTextMacro_guard (env : MacroEnv) (body : List Token) :
    noTextMacro ((TREE_SITTER_TALKTALK_H_, body) :: env) = noTextMacro env := by
  simp only [noTextMacro, headerIdentifiers_eq, List.all_cons, List.all_nil]
  rw [isDefined_cons_of_ne env body (by decide : "typedef" ≠ TREE_SITTER_TALKTALK_H_),
    isDefined_cons_of_ne env body (by decide : "struct" ≠ TREE_SITTER_TALKTALK_H_),
    isDefined_cons_of_ne env body (by decide : "TSLanguage" ≠ TREE_SITTER_TALKTALK_H_),
    isDefined_cons_of_ne env body (by decide : "extern" ≠ TREE_SITTER_TALKTALK_H_),
    isDefined_cons_of_ne env body (by decide : "const" ≠ TREE_SITTER_TALKTALK_H_),
    isDefined_cons_of_ne env body (by decide : "tree_sitter_talktalk" ≠ TREE_SITTER_TALKTALK_H_),
    isDefined_cons_of_ne env body (by decide : "void" ≠ TREE_SITTER_TALKTALK_H_)]

/-! ## Conditional inclusion -/

/-- With the guard defined, the whole header is one skipped group. -/
theorem includeText_skip (env : MacroEnv) (out : List Token)
    (h : isDefined env TREE_SITTER_TALKTALK_H_ = true) :
    includeText env out headerLines = some (env, out) := by
  rw [includeText, parse_headerLines]
  simp [includeFile, runLines, step, PPState.active, h]

/-- With the guard undefined, the guard is defined, lines 4 and 10 are
emitted, and lines 7 and 13 are emitted when `__cplusplus` is defined. -/
theorem includeText_first (env : MacroEnv) (out : List Token)
    (h : isDefined env TREE_SITTER_TALKTALK_H_ = false) :
    includeText env out headerLines =
      some ((TREE_SITTER_TALKTALK_H_, []) :: env,
        if isDefined env __cplusplus then
          out ++ (expandLine ((TREE_SITTER_TALKTALK_H_, []) :: env) typedefLine ++
            (expandLine ((TREE_SITTER_TALKTALK_H_, []) :: env) linkageOpenLine ++
              (expandLine ((TREE_SITTER_TALKTALK_H_, []) :: env) prototypeLine ++
                expandLine ((TREE_SITTER_TALKTALK_H_, []) :: env) linkageCloseLine)))
        else
          out ++ (expandLine ((TREE_SITTER_TALKTALK_H_, []) :: env) typedefLine ++
            expandLine ((TREE_SITTER_TALKTALK_H_, []) :: env) prototypeLine)) := by
  have hcpp : isDefined ((TREE_SITTER_TALKTALK_H_, []) :: env) __cplusplus
      = isDefined env __cplusplus :=
    isDefined_cons_of_ne env [] (by decide)
  rw [includeText, parse_headerLines]
  cases hx : isDefined env __cplusplus <;>
    simp [includeFile, runLines, step, PPState.active, h, hx, hcpp, expandLine_nil]


/-- Processing a concatenation is processing its parts in turn. -/
theorem runLines_append (st : PPState) (a b : List Line) :
    runLines st (a ++ b) = (runLines st a).bind fun st1 => runLines st1 b := by
  induction a generalizing st with
  | nil => simp [runLines]
  | cons l ls ih =>
      simp only [List.cons_append, runLines]
      cases step st l with
      | none => rfl
      | some st1 => simpa using ih st1

/-- A text that holds the header twice is the header included twice, provided
the first copy closes its groups, which `includeText` checks. -/
theorem includeText_append (env : MacroEnv) (out : List Token) :
    includeText env out (headerLines ++ headerLines) =
      (includeText env out headerLines).bind fun r => includeText r.1 r.2 headerLines := by
  have hcpp : isDefined ((TREE_SITTER_TALKTALK_H_, []) :: env) __cplusplus
      = isDefined env __cplusplus :=
    isDefined_cons_of_ne env [] (by decide)
  have hg1 := isDefined_guard_cons env []
  simp only [includeText, List.mapM_append, parse_headerLines, Option.pure_def,
    Option.bind_eq_bind, Option.some_bind, includeFile, runLines_append]
  cases hg : isDefined env TREE_SITTER_TALKTALK_H_ <;> cases hx : isDefined env __cplusplus <;>
    simp [runLines, step, PPState.active, hg, hx, hcpp, hg1, expandLine_nil]

/-! ## The fuel of macro replacement is never exhausted -/

theorem lookup_some_mem (env : MacroEnv) (s : String) (body : List Token)
    (h : env.lookup s = some body) : s ∈ env.map Prod.fst := by
  induction env with
  | nil => simp at h
  | cons e es ih =>
      obtain ⟨k, b⟩ := e
      by_cases hk : s = k
      · simp [hk]
      · have : (s == k) = false := by simpa using hk
        simp only [List.lookup, this] at h
        simp [ih h]

theorem countP_hide_le (keys hide : List String) (s : String) :
    keys.countP (fun k => decide (k ∉ s :: hide)) ≤ keys.countP (fun k => decide (k ∉ hide)) := by
  apply List.countP_mono_left
  intro k _ hk
  simp only [List.mem_cons, not_or, decide_eq_true_eq] at hk ⊢
  exact hk.2

theorem countP_hide_lt (keys hide : List String) (s : String) (hs : s ∉ hide)
    (hmem : s ∈ keys) :
    keys.countP (fun k => decide (k ∉ s :: hide)) < keys.countP (fun k => decide (k ∉ hide)) := by
  induction keys with
  | nil => simp at hmem
  | cons k ks ih =>
      have hle := countP_hide_le ks hide s
      by_cases hk : k = s
      · subst hk
        rw [List.countP_cons_of_neg (p := fun j => decide (j ∉ k :: hide)) ks (by simp),
          List.countP_cons_of_pos (p := fun j => decide (j ∉ hide)) ks (by simpa using hs)]
        omega
      · have hin : s ∈ ks := by
          rcases List.mem_cons.mp hmem with h | h
          · exact absurd h.symm hk
          · exact h
        have := ih hin
        by_cases hh : k ∈ hide
        · rw [List.countP_cons_of_neg (p := fun j => decide (j ∉ s :: hide)) ks (by simp [hh]),
            List.countP_cons_of_neg (p := fun j => decide (j ∉ hide)) ks (by simpa using hh)]
          exact this
        · rw [List.countP_cons_of_pos (p := fun j => decide (j ∉ s :: hide)) ks
              (by simp [hh, hk]),
            List.countP_cons_of_pos (p := fun j => decide (j ∉ hide)) ks (by simpa using hh)]
          omega

theorem available_cons_lt (env : MacroEnv) (hide : List String) (s : String) (hs : s ∉ hide)
    (hmem : s ∈ env.map Prod.fst) : available env (s :: hide) < available env hide :=
  countP_hide_lt _ hide s hs hmem

/-- Once the fuel exceeds the number of macros not yet hidden, more fuel
changes nothing: the base case of `expandTok` is not reached. -/
theorem expandTok_fuel (env : MacroEnv) :
    ∀ (fuel : Nat) (hide : List String) (t : Token), available env hide < fuel →
      expandTok env (fuel + 1) hide t = expandTok env fuel hide t := by
  intro fuel
  induction fuel with
  | zero => intro hide t h; omega
  | succ n ih =>
      intro hide t h
      cases t with
      | ident s =>
          simp only [expandTok]
          by_cases hs : s ∈ hide
          · simp [hs]
          · simp only [hs, if_false]
            cases hl : env.lookup s with
            | none => rfl
            | some body =>
                have hlt := available_cons_lt env hide s hs (lookup_some_mem env s body hl)
                have : expandTok env (n + 1) (s :: hide) = expandTok env n (s :: hide) := by
                  funext t1
                  exact ih (s :: hide) t1 (by omega)
                simp only [this]
      | number s => simp [expandTok]
      | str s => simp [expandTok]
      | punct c => simp [expandTok]

/-- The fuel `expandLine` gives is enough: any larger fuel yields the same
replacement. -/
theorem expandLine_fuel (env : MacroEnv) (k : Nat) (toks : List Token) :
    toks.flatMap (expandTok env (env.length + 1 + k) []) = expandLine env toks := by
  have havail : available env [] = env.length := by simp [available]
  have : expandTok env (env.length + 1 + k) [] = expandTok env (env.length + 1) [] := by
    induction k with
    | zero => rfl
    | succ j ihj =>
        funext t
        rw [← ihj]
        exact expandTok_fuel env (env.length + 1 + j) [] t (by omega)
  rw [this, expandLine]


/-! ## Parsing the emitted tokens -/

theorem parseTokens_C :
    parseTokens (typedefLine ++ prototypeLine) =
      some [⟨[], typedefDecl⟩, ⟨[], prototypeDecl⟩] := by
  decide

theorem parseTokens_Cxx :
    parseTokens (typedefLine ++ (linkageOpenLine ++ (prototypeLine ++ linkageCloseLine))) =
      some [⟨[], typedefDecl⟩, ⟨["C"], prototypeDecl⟩] := by
  decide

/-- First inclusion under an environment that leaves the text alone: the C
output is lines 4 and 10, the C++ output is lines 4, 7, 10 and 13. -/
theorem includeOnce_first (env : MacroEnv)
    (hg : isDefined env TREE_SITTER_TALKTALK_H_ = false) (hc : noTextMacro env = true) :
    includeOnce env =
      some ((TREE_SITTER_TALKTALK_H_, []) :: env,
        if isDefined env __cplusplus then
          typedefLine ++ (linkageOpenLine ++ (prototypeLine ++ linkageCloseLine))
        else typedefLine ++ prototypeLine) := by
  have hc1 : noTextMacro ((TREE_SITTER_TALKTALK_H_, []) :: env) = true := by
    rw [noTextMacro_guard]; exact hc
  obtain ⟨e1, e2, e3, e4⟩ := expandLine_header _ hc1
  rw [includeOnce, includeText_first env [] hg, e1, e2, e3, e4]
  simp

/-- The parser tells a definition from a prototype, a member list from a bare
tag, and an object from a pointer to it. -/
theorem parseTokens_discriminates :
    ((lexLine "typedef struct T \x7b int x; \x7d T; T f(T *a, const T b) \x7b return 1; \x7d").bind
        parseTokens) =
      some [⟨[], .typedef (.struct "T" (some [.ident "int", .ident "x", .punct ';'])) "T"⟩,
            ⟨[], .function (.named "T") "f"
              (.params [(.pointer (.named "T"), some "a"), (.const (.named "T"), some "b")])
              (some [.ident "return", .number "1", .punct ';'])⟩] := by
  decide

/-- C1: including the header twice in a row gives the same emitted tokens and
the same final macro environment as including it once, from every macro
environment, whether the two inclusions are two files or one text holding the
sixteen lines twice: after the first inclusion the guard is defined, and an
inclusion that finds the guard defined emits nothing and defines nothing. -/
theorem include_guard_idempotent (env : MacroEnv) :
    ∃ r, includeOnce env = some r ∧ includeTwice env = some r ∧
      includeText env [] (headerLines ++ headerLines) = some r ∧
      isDefined r.1 TREE_SITTER_TALKTALK_H_ = true ∧
      (∀ (e : MacroEnv) (out : List Token), isDefined e TREE_SITTER_TALKTALK_H_ = true →
        includeText e out headerLines = some (e, out)) := by
  cases hg : isDefined env TREE_SITTER_TALKTALK_H_
  · refine ⟨_, includeText_first env [] hg, ?_, ?_, isDefined_guard_cons env [],
      includeText_skip⟩
    · rw [includeTwice, includeText_first env [] hg]
      exact includeText_skip _ _ (isDefined_guard_cons env [])
    · rw [includeText_append, includeText_first env [] hg]
      exact includeText_skip _ _ (isDefined_guard_cons env [])
  · refine ⟨_, includeText_skip env [] hg, ?_, ?_, hg, includeText_skip⟩
    · rw [includeTwice, includeText_skip env [] hg]
      exact includeText_skip env [] hg
    · rw [includeText_append, includeText_skip env [] hg]
      exact includeText_skip env [] hg

/-- C2: on a first inclusion, under an environment that leaves the text
lines alone, a C translator (`__cplusplus` undefined) and a C++ translator
(`__cplusplus` defined) both emit the typedef and the one prototype; the C++
output is the C output with line 7 before the prototype and line 13 after it,
braces are balanced in both, and both parse to the same two declarations, the
prototype being inside the linkage-specification "C" in C++ only. -/
theorem same_declarations_in_C_and_Cxx (envC envX : MacroEnv)
    (hgC : isDefined envC TREE_SITTER_TALKTALK_H_ = false)
    (hgX : isDefined envX TREE_SITTER_TALKTALK_H_ = false)
    (hC : isDefined envC __cplusplus = false) (hX : isDefined envX __cplusplus = true)
    (hcC : noTextMacro envC = true) (hcX : noTextMacro envX = true) :
    ∃ outC outX,
      includeOnce envC = some ((TREE_SITTER_TALKTALK_H_, []) :: envC, outC) ∧
      includeOnce envX = some ((TREE_SITTER_TALKTALK_H_, []) :: envX, outX) ∧
      outC = typedefLine ++ prototypeLine ∧
      outX = typedefLine ++ (linkageOpenLine ++ (prototypeLine ++ linkageCloseLine)) ∧
      linkageOpenLine = [.ident "extern", .str "C", .punct (Char.ofNat 123)] ∧
      linkageCloseLine = [.punct (Char.ofNat 125)] ∧
      balanced outC = true ∧ balanced outX = true ∧
      parseTokens outC = some [⟨[], typedefDecl⟩, ⟨[], prototypeDecl⟩] ∧
      parseTokens outX = some [⟨[], typedefDecl⟩, ⟨["C"], prototypeDecl⟩] := by
  refine ⟨_, _, ?_, ?_, rfl, rfl, rfl, rfl, by decide, by decide, parseTokens_C,
    parseTokens_Cxx⟩
  · rw [includeOnce_first envC hgC hcC, hC]; rfl
  · rw [includeOnce_first envX hgX hcX, hX]; rfl

theorem same_declarations_in_C_and_Cxx_witness :
    ∃ outC outX,
      includeOnce plainC = some ((TREE_SITTER_TALKTALK_H_, []) :: plainC, outC) ∧
      includeOnce cxx17 = some ((TREE_SITTER_TALKTALK_H_, []) :: cxx17, outX) ∧
      outC = typedefLine ++ prototypeLine ∧
      outX = typedefLine ++ (linkageOpenLine ++ (prototypeLine ++ linkageCloseLine)) ∧
      linkageOpenLine = [.ident "extern", .str "C", .punct (Char.ofNat 123)] ∧
      linkageCloseLine = [.punct (Char.ofNat 125)] ∧
      balanced outC = true ∧ balanced outX = true ∧
      parseTokens outC = some [⟨[], typedefDecl⟩, ⟨[], prototypeDecl⟩] ∧
      parseTokens outX = some [⟨[], typedefDecl⟩, ⟨["C"], prototypeDecl⟩] :=
  same_declarations_in_C_and_Cxx plainC cxx17 (by decide) (by decide) (by decide)
    (by decide) (by decide) (by decide)


theorem parseTokens_headerText :
    parseTokens headerText = some [⟨[], typedefDecl⟩, ⟨["C"], prototypeDecl⟩] := by
  decide

/-- C3: the header declares exactly one function: `tree_sitter_talktalk`,
with the parameter list `(void)`, returning a pointer to `const TSLanguage`,
and without a body.  This holds of what a first inclusion emits, in C and in
C++, and of the header's text lines taken all together. -/
theorem header_declares_one_function (env : MacroEnv)
    (hg : isDefined env TREE_SITTER_TALKTALK_H_ = false) (hc : noTextMacro env = true) :
    ∃ r ds all,
      includeOnce env = some r ∧ parseTokens r.2 = some ds ∧
      functionsOf ds =
        [.function (.pointer (.const (.named TSLanguage))) tree_sitter_talktalk .void none] ∧
      parseTokens headerText = some all ∧
      functionsOf all =
        [.function (.pointer (.const (.named TSLanguage))) tree_sitter_talktalk .void none] := by
  have h1 := includeOnce_first env hg hc
  cases hx : isDefined env __cplusplus <;> rw [hx] at h1
  · exact ⟨_, _, _, h1, parseTokens_C, rfl, parseTokens_headerText, rfl⟩
  · exact ⟨_, _, _, h1, parseTokens_Cxx, rfl, parseTokens_headerText, rfl⟩

theorem header_declares_one_function_witness :
    ∃ r ds all,
      includeOnce cxx17 = some r ∧ parseTokens r.2 = some ds ∧
      functionsOf ds =
        [.function (.pointer (.const (.named TSLanguage))) tree_sitter_talktalk .void none] ∧
      parseTokens headerText = some all ∧
      functionsOf all =
        [.function (.pointer (.const (.named TSLanguage))) tree_sitter_talktalk .void none] :=
  header_declares_one_function cxx17 (by decide) (by decide)

/-- What C4 says of a list of external declarations: its only typedef is the
forward declaration of line 4, no type in it gives `struct TSLanguage` a member
list, and outside that typedef no type holds a `TSLanguage` otherwise than
behind a pointer. -/
theorem opaque_in_declarations (links : List String) :
    ∀ ds, ds = [(⟨[], typedefDecl⟩ : ExtDecl), ⟨links, prototypeDecl⟩] →
      (ds.filter fun d => d.decl.isTypedef).map (·.decl) =
        [.typedef (.struct TSLanguage none) TSLanguage] ∧
      (∀ d ∈ ds, ∀ ty ∈ d.decl.types, ty.memberLists TSLanguage = []) ∧
      (∀ d ∈ ds, d.decl.isTypedef = false →
        ∀ ty ∈ d.decl.types, ty.holdsByValue TSLanguage = false) := by
  rintro ds rfl
  simp [typedefDecl, prototypeDecl, Decl.isTypedef, Decl.types, CType.memberLists,
    CType.holdsByValue]

/-- C4: `TSLanguage` is opaque in the header.  Among the declarations of a
first inclusion (C or C++) the only typedef is the forward declaration
`typedef struct TSLanguage TSLanguage;`, whose struct specifier has no member
list; no type anywhere gives `struct TSLanguage` a member list; and outside
that typedef `TSLanguage` occurs only behind a pointer. -/
theorem TSLanguage_is_opaque (env : MacroEnv)
    (hg : isDefined env TREE_SITTER_TALKTALK_H_ = false) (hc : noTextMacro env = true) :
    ∃ r ds,
      includeOnce env = some r ∧ parseTokens r.2 = some ds ∧
      (ds.filter fun d => d.decl.isTypedef).map (·.decl) =
        [.typedef (.struct TSLanguage none) TSLanguage] ∧
      (∀ d ∈ ds, ∀ ty ∈ d.decl.types, ty.memberLists TSLanguage = []) ∧
      (∀ d ∈ ds, d.decl.isTypedef = false →
        ∀ ty ∈ d.decl.types, ty.holdsByValue TSLanguage = false) := by
  have h1 := includeOnce_first env hg hc
  cases hx : isDefined env __cplusplus <;> rw [hx] at h1
  · exact ⟨_, _, h1, parseTokens_C, opaque_in_declarations [] _ rfl⟩
  · exact ⟨_, _, h1, parseTokens_Cxx, opaque_in_declarations ["C"] _ rfl⟩

theorem TSLanguage_is_opaque_witness :
    ∃ r ds,
      includeOnce cxx17 = some r ∧ parseTokens r.2 = some ds ∧
      (ds.filter fun d => d.decl.isTypedef).map (·.decl) =
        [.typedef (.struct TSLanguage none) TSLanguage] ∧
      (∀ d ∈ ds, ∀ ty ∈ d.decl.types, ty.memberLists TSLanguage = []) ∧
      (∀ d ∈ ds, d.decl.isTypedef = false →
        ∀ ty ∈ d.decl.types, ty.holdsByValue TSLanguage = false) :=
  TSLanguage_is_opaque cxx17 (by decide) (by decide)

end TalkTalk
